import Mathlib

/-!
Shallow embedding of the on-chain wager escrow contracts of the WagerX
repository (Solidity source: `WagerContract` and `WagerContractGasOptimized`).

Modelling conventions:
* addresses are natural numbers, with `0` playing the role of `address(0)`;
* `uint256` values are `Nat` with explicit `% 2 ^ w` / bound checks where the
  EVM's checked arithmetic (Solidity ^0.8) would revert on overflow;
* a Solidity mapping is a total function with the zero record as default,
  exactly as EVM storage behaves for never-written keys;
* `require(P, msg)` / `if (!P) revert Err()` is rendered as
  `if P then «continue» else .error msg`; a failed `transfer` likewise aborts
  the call, so each external function is a pure function returning `Except`:
  on success the new state and the list of outgoing value transfers, on
  failure an error (the transaction wrapper keeps the unchanged pre-state);
* the environment of a call (`msg.sender`, `msg.value`, `block.timestamp`,
  and which addresses accept a plain `transfer`) is an explicit `Env` record.
-/

abbrev Address := Nat

/-- 2 ^ 256, the modulus of EVM words; Solidity ^0.8 checked arithmetic
reverts instead of wrapping past it. -/
def U256 : Nat := 2 ^ 256

/-- The `Wager` struct of the baseline `WagerContract`.
`status`: 0 = pending, 1 = active, 2 = resolved, 3 = cancelled. -/
structure Wager where
  id : Nat
  participants : List Address
  amount : Nat
  condition : String
  status : Nat
  winner : Address
  charityEnabled : Bool
  charityPercentage : Nat
  charityAddress : Address
  charityDonated : Nat
  createdAt : Nat
  resolvedAt : Nat
deriving Repr, DecidableEq

/-- The all-zero `Wager`, the value an EVM mapping yields for a key that was
never written. -/
def zeroWager : Wager :=
  { id := 0, participants := [], amount := 0, condition := "", status := 0,
    winner := 0, charityEnabled := false, charityPercentage := 0,
    charityAddress := 0, charityDonated := 0, createdAt := 0, resolvedAt := 0 }

/-- Call environment: `msg.sender`, `msg.value`, `block.timestamp`, and which
addresses succeed as targets of a plain `transfer`. -/
structure Env where
  sender : Address
  value : Nat
  timestamp : Nat
  canReceive : Address → Bool

/-- Storage of the baseline `WagerContract`: the `wagers` mapping, the private
`nextWagerId` counter (initialised to 1) and the `owner` address. -/
structure CState where
  wagers : Nat → Wager
  nextWagerId : Nat
  owner : Address

/-- The participant-membership loop shared by `acceptWager` and
`resolveWager` (linear scan with early break). -/
def isParticipant (participants : List Address) (a : Address) : Bool :=
  participants.any fun p => decide (p = a)

/-- Pointwise update of a storage mapping (`m[k] = v`). -/
def updf {A : Type} (f : Nat → A) (k : Nat) (v : A) : Nat → A :=
  fun x => if x = k then v else f x

@[simp] theorem updf_same {A : Type} (f : Nat → A) (k : Nat) (v : A) :
    updf f k v k = v := by
  simp [updf]

theorem updf_ne {A : Type} (f : Nat → A) (k x : Nat) (v : A) (h : x ≠ k) :
    updf f k v x = f x := by
  simp [updf, h]

/-- Storage write `wagers[wagerId] = w`. -/
def setWager (st : CState) (wagerId : Nat) (w : Wager) : CState :=
  { st with wagers := updf st.wagers wagerId w }

/-- The counter increment performed by `nextWagerId++`. -/
def bumpId (st : CState) : CState :=
  { st with nextWagerId := st.nextWagerId + 1 }

@[simp] theorem setWager_wagers_same (st : CState) (wid : Nat) (w : Wager) :
    (setWager st wid w).wagers wid = w := by
  simp [setWager]

theorem setWager_wagers_ne (st : CState) (wid id : Nat) (w : Wager)
    (h : id ≠ wid) : (setWager st wid w).wagers id = st.wagers id := by
  simp only [setWager]
  exact updf_ne _ _ _ _ h

@[simp] theorem setWager_nextWagerId (st : CState) (wid : Nat) (w : Wager) :
    (setWager st wid w).nextWagerId = st.nextWagerId := rfl

@[simp] theorem setWager_owner (st : CState) (wid : Nat) (w : Wager) :
    (setWager st wid w).owner = st.owner := rfl

@[simp] theorem bumpId_wagers (st : CState) : (bumpId st).wagers = st.wagers :=
  rfl

@[simp] theorem bumpId_nextWagerId (st : CState) :
    (bumpId st).nextWagerId = st.nextWagerId + 1 := rfl

@[simp] theorem bumpId_owner (st : CState) : (bumpId st).owner = st.owner :=
  rfl

namespace WagerContract

/-- `WagerContract.createWager`: requires `msg.value >= amount`,
`participants.length >= 2`, `charityPercentage <= 100`; allocates
`wagerId = nextWagerId++` (checked increment) and stores a fresh pending
record. Returns the new state and the allocated id. -/
def createWager (st : CState) (env : Env) (participants : List Address)
    (amount : Nat) (condition : String) (charityEnabled : Bool)
    (charityPercentage : Nat) (charityAddress : Address) :
    Except String (CState × Nat) :=
  if amount ≤ env.value then
    if 2 ≤ participants.length then
      if charityPercentage ≤ 100 then
        if st.nextWagerId + 1 < U256 then
          let wagerId := st.nextWagerId
          let w : Wager :=
            { id := wagerId, participants := participants, amount := amount,
              condition := condition, status := 0, winner := 0,
              charityEnabled := charityEnabled,
              charityPercentage := charityPercentage,
              charityAddress := charityAddress, charityDonated := 0,
              createdAt := env.timestamp, resolvedAt := 0 }
          .ok (bumpId (setWager st wagerId w), wagerId)
        else .error "arithmetic overflow"
      else .error "Charity percentage too high"
    else .error "Need at least 2 participants"
  else .error "Insufficient payment"

/-- `WagerContract.acceptWager`: requires status pending, sufficient payment,
and `msg.sender` a participant; flips status to active. -/
def acceptWager (st : CState) (env : Env) (wagerId : Nat) :
    Except String CState :=
  let w := st.wagers wagerId
  if w.status = 0 then
    if w.amount ≤ env.value then
      if isParticipant w.participants env.sender then
        .ok (setWager st wagerId { w with status := 1 })
      else .error "Not a participant"
    else .error "Insufficient payment"
  else .error "Wager not pending"

/-- `WagerContract.resolveWager`: requires status active, nonempty
participants, winner a participant; marks the wager resolved, pays
`floor(totalAmount * charityPercentage / 100)` to the charity when
`charityEnabled && charityPercentage > 0 && charityAddress != 0`, and the
remainder to the winner. Checked `uint256` arithmetic; a failing `transfer`
reverts the whole call. -/
def resolveWager (st : CState) (env : Env) (wagerId : Nat) (winner : Address)
    (evidence : String) : Except String (CState × List (Address × Nat)) :=
  let w := st.wagers wagerId
  if w.status = 1 then
    if 0 < w.participants.length then
      if isParticipant w.participants winner then
        if w.amount * w.participants.length < U256 then
          let totalAmount := w.amount * w.participants.length
          if w.charityEnabled = true ∧ 0 < w.charityPercentage ∧
              w.charityAddress ≠ 0 then
            if totalAmount * w.charityPercentage < U256 then
              let charityAmount := totalAmount * w.charityPercentage / 100
              if env.canReceive w.charityAddress then
                if charityAmount ≤ totalAmount then
                  if env.canReceive winner then
                    .ok (setWager st wagerId
                          { w with
                            status := 2, winner := winner,
                            resolvedAt := env.timestamp,
                            charityDonated := charityAmount },
                         [(w.charityAddress, charityAmount),
                          (winner, totalAmount - charityAmount)])
                  else .error "winner transfer failed"
                else .error "arithmetic underflow"
              else .error "charity transfer failed"
            else .error "arithmetic overflow"
          else
            if env.canReceive winner then
              .ok (setWager st wagerId
                    { w with
                      status := 2, winner := winner,
                      resolvedAt := env.timestamp },
                   [(winner, totalAmount)])
            else .error "winner transfer failed"
        else .error "arithmetic overflow"
      else .error "Winner must be a participant"
    else .error "Invalid wager"
  else .error "Wager not active"

/-- `WagerContract.cancelWager`: requires status pending or active and the
caller to be the owner or `participants[0]` (the `||` short-circuits, so the
index is only read for a non-owner caller and panics on an empty array);
marks the wager cancelled and refunds `amount` to every participant, any
failing refund reverting the whole call. -/
def cancelWager (st : CState) (env : Env) (wagerId : Nat) :
    Except String (CState × List (Address × Nat)) :=
  let w := st.wagers wagerId
  let refund : Except String (CState × List (Address × Nat)) :=
    if w.participants.all env.canReceive then
      .ok (setWager st wagerId { w with status := 3 },
           w.participants.map fun p => (p, w.amount))
    else .error "refund transfer failed"
  if w.status = 0 ∨ w.status = 1 then
    if env.sender = st.owner then refund
    else if w.participants = [] then .error "panic: array out-of-bounds access"
    else if env.sender = w.participants.headI then refund
    else .error "Not authorized"
  else .error "Cannot cancel"

end WagerContract

/-- One external call to the contract, with its arguments. -/
inductive Call where
  | create (participants : List Address) (amount : Nat) (condition : String)
      (charityEnabled : Bool) (charityPercentage : Nat)
      (charityAddress : Address)
  | accept (wagerId : Nat)
  | resolve (wagerId : Nat) (winner : Address) (evidence : String)
  | cancel (wagerId : Nat)

/-- Observable outcome of one call: whether it succeeded, the outgoing value
transfers it performed, and (for `createWager`) the returned wager id. -/
structure StepOut where
  ok : Bool
  transfers : List (Address × Nat)
  created : Option Nat
deriving Repr, DecidableEq

namespace WagerContract

/-- Transaction semantics of a call returning an id: on revert the state is
unchanged and no transfer happens. -/
def wrapCreate (st : CState) : Except String (CState × Nat) → CState × StepOut
  | .ok (st2, wid) => (st2, ⟨true, [], some wid⟩)
  | .error _ => (st, ⟨false, [], none⟩)

/-- Transaction semantics of a call returning nothing. -/
def wrapAccept (st : CState) : Except String CState → CState × StepOut
  | .ok st2 => (st2, ⟨true, [], none⟩)
  | .error _ => (st, ⟨false, [], none⟩)

/-- Transaction semantics of a call performing value transfers. -/
def wrapMoves (st : CState) :
    Except String (CState × List (Address × Nat)) → CState × StepOut
  | .ok (st2, trs) => (st2, ⟨true, trs, none⟩)
  | .error _ => (st, ⟨false, [], none⟩)

/-- Transaction-level semantics of one call to the baseline contract: on
revert the state is unchanged and no transfer happens. -/
def bstep (st : CState) (env : Env) : Call → CState × StepOut
  | .create ps amt cond ce cp ca =>
    wrapCreate st (createWager st env ps amt cond ce cp ca)
  | .accept wid => wrapAccept st (acceptWager st env wid)
  | .resolve wid wnr ev => wrapMoves st (resolveWager st env wid wnr ev)
  | .cancel wid => wrapMoves st (cancelWager st env wid)

/-- Run a list of calls from a state. -/
def brun (st : CState) : List (Env × Call) → CState
  | [] => st
  | (e, c) :: rest => brun (bstep st e c).1 rest

/-- The wager ids returned by the successful `createWager` calls of a run,
in call order. -/
def brunIds (st : CState) : List (Env × Call) → List Nat
  | [] => []
  | (e, c) :: rest =>
    (bstep st e c).2.created.toList ++ brunIds (bstep st e c).1 rest

/-- The per-call observable outcomes of a run. -/
def brunOuts (st : CState) : List (Env × Call) → List StepOut
  | [] => []
  | (e, c) :: rest => (bstep st e c).2 :: brunOuts (bstep st e c).1 rest

/-- Deployment state: empty storage, `nextWagerId = 1`, deployer as owner. -/
def initState (owner : Address) : CState :=
  { wagers := fun _ => zeroWager, nextWagerId := 1, owner := owner }

/-- A contract state reachable from deployment by some sequence of calls. -/
def Reachable (st : CState) : Prop :=
  ∃ o tr, st = brun (initState o) tr

/-- Shape of a `createWager` transaction as an if-chain. -/
theorem bstep_create_eq (st : CState) (env : Env) (ps : List Address)
    (amt : Nat) (cond : String) (ce : Bool) (cp : Nat) (ca : Address) :
    bstep st env (.create ps amt cond ce cp ca) =
      if amt ≤ env.value then
        if 2 ≤ ps.length then
          if cp ≤ 100 then
            if st.nextWagerId + 1 < U256 then
              (bumpId (setWager st st.nextWagerId
                { id := st.nextWagerId, participants := ps, amount := amt,
                  condition := cond, status := 0, winner := 0,
                  charityEnabled := ce, charityPercentage := cp,
                  charityAddress := ca, charityDonated := 0,
                  createdAt := env.timestamp, resolvedAt := 0 }),
               ⟨true, [], some st.nextWagerId⟩)
            else (st, ⟨false, [], none⟩)
          else (st, ⟨false, [], none⟩)
        else (st, ⟨false, [], none⟩)
      else (st, ⟨false, [], none⟩) := by
  simp only [bstep, createWager]
  simp only [apply_ite (wrapCreate st)]
  rfl

/-- Shape of an `acceptWager` transaction as an if-chain. -/
theorem bstep_accept_eq (st : CState) (env : Env) (wid : Nat) :
    bstep st env (.accept wid) =
      if (st.wagers wid).status = 0 then
        if (st.wagers wid).amount ≤ env.value then
          if isParticipant (st.wagers wid).participants env.sender then
            (setWager st wid { st.wagers wid with status := 1 },
             ⟨true, [], none⟩)
          else (st, ⟨false, [], none⟩)
        else (st, ⟨false, [], none⟩)
      else (st, ⟨false, [], none⟩) := by
  simp only [bstep, acceptWager]
  simp only [apply_ite (wrapAccept st)]
  rfl

/-- Shape of a `resolveWager` transaction as an if-chain. -/
theorem bstep_resolve_eq (st : CState) (env : Env) (wid : Nat)
    (wnr : Address) (ev : String) :
    bstep st env (.resolve wid wnr ev) =
      if (st.wagers wid).status = 1 then
        if 0 < (st.wagers wid).participants.length then
          if isParticipant (st.wagers wid).participants wnr then
            if (st.wagers wid).amount * (st.wagers wid).participants.length <
                U256 then
              if (st.wagers wid).charityEnabled = true ∧
                  0 < (st.wagers wid).charityPercentage ∧
                  (st.wagers wid).charityAddress ≠ 0 then
                if (st.wagers wid).amount *
                    (st.wagers wid).participants.length *
                    (st.wagers wid).charityPercentage < U256 then
                  if env.canReceive (st.wagers wid).charityAddress then
                    if (st.wagers wid).amount *
                        (st.wagers wid).participants.length *
                        (st.wagers wid).charityPercentage / 100 ≤
                        (st.wagers wid).amount *
                          (st.wagers wid).participants.length then
                      if env.canReceive wnr then
                        (setWager st wid
                          { st.wagers wid with
                            status := 2, winner := wnr,
                            resolvedAt := env.timestamp,
                            charityDonated :=
                              (st.wagers wid).amount *
                                (st.wagers wid).participants.length *
                                (st.wagers wid).charityPercentage / 100 },
                         ⟨true,
                          [((st.wagers wid).charityAddress,
                            (st.wagers wid).amount *
                              (st.wagers wid).participants.length *
                              (st.wagers wid).charityPercentage / 100),
                           (wnr,
                            (st.wagers wid).amount *
                              (st.wagers wid).participants.length -
                              (st.wagers wid).amount *
                                (st.wagers wid).participants.length *
                                (st.wagers wid).charityPercentage / 100)],
                          none⟩)
                      else (st, ⟨false, [], none⟩)
                    else (st, ⟨false, [], none⟩)
                  else (st, ⟨false, [], none⟩)
                else (st, ⟨false, [], none⟩)
              else
                if env.canReceive wnr then
                  (setWager st wid
                    { st.wagers wid with
                      status := 2, winner := wnr,
                      resolvedAt := env.timestamp },
                   ⟨true,
                    [(wnr,
                      (st.wagers wid).amount *
                        (st.wagers wid).participants.length)],
                    none⟩)
                else (st, ⟨false, [], none⟩)
            else (st, ⟨false, [], none⟩)
          else (st, ⟨false, [], none⟩)
        else (st, ⟨false, [], none⟩)
      else (st, ⟨false, [], none⟩) := by
  simp only [bstep, resolveWager]
  simp only [apply_ite (wrapMoves st)]
  rfl

/-- Shape of a `cancelWager` transaction as an if-chain. -/
theorem bstep_cancel_eq (st : CState) (env : Env) (wid : Nat) :
    bstep st env (.cancel wid) =
      if (st.wagers wid).status = 0 ∨ (st.wagers wid).status = 1 then
        if env.sender = st.owner then
          (if (st.wagers wid).participants.all env.canReceive then
            (setWager st wid { st.wagers wid with status := 3 },
             ⟨true,
              (st.wagers wid).participants.map fun p =>
                (p, (st.wagers wid).amount),
              none⟩)
          else (st, ⟨false, [], none⟩))
        else if (st.wagers wid).participants = [] then (st, ⟨false, [], none⟩)
        else if env.sender = (st.wagers wid).participants.headI then
          (if (st.wagers wid).participants.all env.canReceive then
            (setWager st wid { st.wagers wid with status := 3 },
             ⟨true,
              (st.wagers wid).participants.map fun p =>
                (p, (st.wagers wid).amount),
              none⟩)
          else (st, ⟨false, [], none⟩))
        else (st, ⟨false, [], none⟩)
      else (st, ⟨false, [], none⟩) := by
  simp only [bstep, cancelWager]
  simp only [apply_ite (wrapMoves st)]
  rfl

/-- A storage slot that was never written by `createWager` is either still
all-zero or has been flipped to status 3 by an owner `cancelWager` call on a
not-yet-created id. -/
def phantomOk (w : Wager) : Prop :=
  w = zeroWager ∨ w = { zeroWager with status := 3 }

/-- The reachability invariant of the baseline contract: the counter is at
least 1; slots outside `[1, nextWagerId)` were never created (phantoms); and
every created wager has at least two participants, a charity percentage at
most 100, and a winner drawn from its participants when resolved. -/
def Inv (st : CState) : Prop :=
  1 ≤ st.nextWagerId ∧
  (∀ id, id = 0 ∨ st.nextWagerId ≤ id → phantomOk (st.wagers id)) ∧
  (∀ id, 1 ≤ id → id < st.nextWagerId →
    2 ≤ (st.wagers id).participants.length ∧
    (st.wagers id).charityPercentage ≤ 100 ∧
    ((st.wagers id).status = 2 →
      isParticipant (st.wagers id).participants (st.wagers id).winner = true))

theorem inv_init (o : Address) : Inv (initState o) := by
  refine ⟨le_refl 1, fun id _ => Or.inl rfl, fun id h1 h2 => ?_⟩
  simp [initState] at h1 h2
  omega

/-- A phantom slot cannot pass `acceptWager`'s or `resolveWager`'s checks:
it has no participants if pending, and is not pending/active otherwise. -/
theorem phantom_not_accept (w : Wager) (h : phantomOk w) (a : Address) :
    ¬ (w.status = 0 ∧ isParticipant w.participants a = true) := by
  rcases h with h | h <;> subst h <;> simp [zeroWager, isParticipant]

theorem inv_preserved (st : CState) (env : Env) (c : Call) (hinv : Inv st) :
    Inv (bstep st env c).1 := by
  obtain ⟨hn, hph, hcr⟩ := hinv
  cases c with
  | create ps amt cond ce cp ca =>
    rw [bstep_create_eq]
    split_ifs with h1 h2 h3 h4
    · dsimp only
      refine ⟨?_, ?_, ?_⟩
      · simp only [bumpId_nextWagerId, setWager_nextWagerId]
        omega
      · intro id hid
        simp only [bumpId_nextWagerId, setWager_nextWagerId] at hid
        simp only [bumpId_wagers]
        rw [setWager_wagers_ne _ _ _ _ (by omega)]
        exact hph id (by omega)
      · intro id hid1 hid2
        simp only [bumpId_nextWagerId, setWager_nextWagerId] at hid2
        simp only [bumpId_wagers]
        by_cases he : id = st.nextWagerId
        · subst he
          simp only [setWager_wagers_same]
          refine ⟨show 2 ≤ ps.length from h2, show cp ≤ 100 from h3, ?_⟩
          intro hst
          exact absurd hst (by decide)
        · rw [setWager_wagers_ne _ _ _ _ he]
          exact hcr id hid1 (by omega)
    · exact ⟨hn, hph, hcr⟩
    · exact ⟨hn, hph, hcr⟩
    · exact ⟨hn, hph, hcr⟩
    · exact ⟨hn, hph, hcr⟩
  | accept wid =>
    rw [bstep_accept_eq]
    split_ifs with h1 h2 h3
    · -- success: the accepted wager must be a created one
      have hwid : 1 ≤ wid ∧ wid < st.nextWagerId := by
        by_contra hc
        have hp : phantomOk (st.wagers wid) := hph wid (by omega)
        exact phantom_not_accept _ hp env.sender ⟨h1, h3⟩
      dsimp only
      refine ⟨?_, ?_, ?_⟩
      · simp only [setWager_nextWagerId]
        omega
      · intro id hid
        simp only [setWager_nextWagerId] at hid
        rw [setWager_wagers_ne _ _ _ _ (by omega)]
        exact hph id hid
      · intro id hid1 hid2
        simp only [setWager_nextWagerId] at hid2
        by_cases he : id = wid
        · subst he
          obtain ⟨hl, hcp, _⟩ := hcr id hid1 hid2
          simp only [setWager_wagers_same]
          refine ⟨hl, hcp, ?_⟩
          intro hst
          exact absurd hst (by decide)
        · rw [setWager_wagers_ne _ _ _ _ he]
          exact hcr id hid1 hid2
    · exact ⟨hn, hph, hcr⟩
    · exact ⟨hn, hph, hcr⟩
    · exact ⟨hn, hph, hcr⟩
  | resolve wid wnr ev =>
    rw [bstep_resolve_eq]
    have hwid : (st.wagers wid).status = 1 → 1 ≤ wid ∧ wid < st.nextWagerId := by
      intro hs
      by_contra hc
      have hp : phantomOk (st.wagers wid) := hph wid (by omega)
      rcases hp with hp | hp <;> rw [hp] at hs <;> exact absurd hs (by decide)
    split_ifs with h1 h2 h3 h4 h5 h6 h7 h8 h9 h10
    · -- success, charity branch
      obtain ⟨hw1, hw2⟩ := hwid h1
      dsimp only
      refine ⟨?_, ?_, ?_⟩
      · simp only [setWager_nextWagerId]
        omega
      · intro id hid
        simp only [setWager_nextWagerId] at hid
        rw [setWager_wagers_ne _ _ _ _ (by omega)]
        exact hph id hid
      · intro id hid1 hid2
        simp only [setWager_nextWagerId] at hid2
        by_cases he : id = wid
        · subst he
          obtain ⟨hl, hcp, _⟩ := hcr id hid1 hid2
          simp only [setWager_wagers_same]
          exact ⟨hl, hcp, fun _ => h3⟩
        · rw [setWager_wagers_ne _ _ _ _ he]
          exact hcr id hid1 hid2
    · exact ⟨hn, hph, hcr⟩
    · exact ⟨hn, hph, hcr⟩
    · exact ⟨hn, hph, hcr⟩
    · exact ⟨hn, hph, hcr⟩
    · -- success, no-charity branch
      obtain ⟨hw1, hw2⟩ := hwid h1
      dsimp only
      refine ⟨?_, ?_, ?_⟩
      · simp only [setWager_nextWagerId]
        omega
      · intro id hid
        simp only [setWager_nextWagerId] at hid
        rw [setWager_wagers_ne _ _ _ _ (by omega)]
        exact hph id hid
      · intro id hid1 hid2
        simp only [setWager_nextWagerId] at hid2
        by_cases he : id = wid
        · subst he
          obtain ⟨hl, hcp, _⟩ := hcr id hid1 hid2
          simp only [setWager_wagers_same]
          exact ⟨hl, hcp, fun _ => h3⟩
        · rw [setWager_wagers_ne _ _ _ _ he]
          exact hcr id hid1 hid2
    · exact ⟨hn, hph, hcr⟩
    · exact ⟨hn, hph, hcr⟩
    · exact ⟨hn, hph, hcr⟩
    · exact ⟨hn, hph, hcr⟩
    · exact ⟨hn, hph, hcr⟩
  | cancel wid =>
    rw [bstep_cancel_eq]
    have hsucc : Inv (setWager st wid { st.wagers wid with status := 3 }) := by
      refine ⟨?_, ?_, ?_⟩
      · simp only [setWager_nextWagerId]
        omega
      · intro id hid
        simp only [setWager_nextWagerId] at hid
        by_cases he : id = wid
        · subst he
          have hp := hph id hid
          simp only [setWager_wagers_same]
          rcases hp with hp | hp <;> rw [hp] <;> exact Or.inr rfl
        · rw [setWager_wagers_ne _ _ _ _ he]
          exact hph id hid
      · intro id hid1 hid2
        simp only [setWager_nextWagerId] at hid2
        by_cases he : id = wid
        · subst he
          obtain ⟨hl, hcp, _⟩ := hcr id hid1 hid2
          simp only [setWager_wagers_same]
          refine ⟨hl, hcp, ?_⟩
          intro hst
          exact absurd hst (by decide)
        · rw [setWager_wagers_ne _ _ _ _ he]
          exact hcr id hid1 hid2
    split_ifs with h1 h2 h3 h4 h5 h6
    · exact hsucc
    · exact ⟨hn, hph, hcr⟩
    · exact ⟨hn, hph, hcr⟩
    · exact hsucc
    · exact ⟨hn, hph, hcr⟩
    · exact ⟨hn, hph, hcr⟩
    · exact ⟨hn, hph, hcr⟩

theorem inv_brun (st : CState) (tr : List (Env × Call)) (hinv : Inv st) :
    Inv (brun st tr) := by
  induction tr generalizing st with
  | nil => exact hinv
  | cons x rest ih =>
    obtain ⟨e, c⟩ := x
    exact ih _ (inv_preserved st e c hinv)

theorem inv_reachable (st : CState) (h : Reachable st) : Inv st := by
  obtain ⟨o, tr, rfl⟩ := h
  exact inv_brun _ tr (inv_init o)

end WagerContract

namespace WagerContractGasOptimized

/-- The packed `Wager` struct of `WagerContractGasOptimized`: `amount` is a
`uint128`, `createdAt` a `uint64`, `id` a `uint32`; participants, condition,
`charityDonated` and `resolvedAt` live in separate mappings. (The struct
literal in the source's `createWager` also lists `participants`, `condition`
and `resolvedAt`, which are not members of this packed struct; they are the
values stored in the separate mappings right below it.) -/
structure GWager where
  amount : Nat
  createdAt : Nat
  id : Nat
  status : Nat
  charityPercentage : Nat
  charityEnabled : Bool
  winner : Address
  charityAddress : Address
deriving Repr, DecidableEq

/-- The all-zero packed record (EVM default for unwritten keys). -/
def zeroGWager : GWager :=
  { amount := 0, createdAt := 0, id := 0, status := 0, charityPercentage := 0,
    charityEnabled := false, winner := 0, charityAddress := 0 }

/-- Storage of `WagerContractGasOptimized`: the packed `wagers` mapping plus
the separate `wagerParticipants`, `wagerConditions`, `charityDonated` and
`resolvedAt` mappings, the counter and the immutable owner. -/
structure GState where
  wagerParticipants : Nat → List Address
  wagerConditions : Nat → String
  wagers : Nat → GWager
  charityDonated : Nat → Nat
  resolvedAt : Nat → Nat
  nextWagerId : Nat
  owner : Address

/-- `WagerContractGasOptimized.createWager`. The `amount` parameter has type
`uint128`, so calldata carrying a larger value is rejected before the body
runs; `createdAt` is stored truncated to `uint64` and the struct's `id` field
truncated to `uint32`. -/
def createWager (st : GState) (env : Env) (participants : List Address)
    (amount : Nat) (condition : String) (charityEnabled : Bool)
    (charityPercentage : Nat) (charityAddress : Address) :
    Except String (GState × Nat) :=
  if amount < 2 ^ 128 then
    if amount ≤ env.value then
      if 2 ≤ participants.length then
        if charityPercentage ≤ 100 then
          if st.nextWagerId + 1 < U256 then
            let wagerId := st.nextWagerId
            let w : GWager :=
              { amount := amount, createdAt := env.timestamp % 2 ^ 64,
                id := wagerId % 2 ^ 32, status := 0,
                charityPercentage := charityPercentage,
                charityEnabled := charityEnabled, winner := 0,
                charityAddress := charityAddress }
            .ok ({ st with
                    wagers := updf st.wagers wagerId w,
                    wagerParticipants :=
                      updf st.wagerParticipants wagerId participants,
                    wagerConditions :=
                      updf st.wagerConditions wagerId condition,
                    nextWagerId := wagerId + 1 }, wagerId)
          else .error "arithmetic overflow"
        else .error "CharityPercentageTooHigh"
      else .error "NeedAtLeast2Participants"
    else .error "InsufficientPayment"
  else .error "calldata: amount exceeds uint128"

/-- `WagerContractGasOptimized.acceptWager` (same checks as the baseline,
participants read from the separate mapping). -/
def acceptWager (st : GState) (env : Env) (wagerId : Nat) :
    Except String GState :=
  let w := st.wagers wagerId
  if w.status = 0 then
    if w.amount ≤ env.value then
      if isParticipant (st.wagerParticipants wagerId) env.sender then
        .ok { st with wagers := updf st.wagers wagerId { w with status := 1 } }
      else .error "NotAParticipant"
    else .error "InsufficientPayment"
  else .error "WagerNotPending"

/-- `WagerContractGasOptimized.resolveWager` (no `evidence` parameter;
`resolvedAt` stored truncated to `uint64` in its own mapping, `charityDonated`
in its own mapping). -/
def resolveWager (st : GState) (env : Env) (wagerId : Nat) (winner : Address) :
    Except String (GState × List (Address × Nat)) :=
  let w := st.wagers wagerId
  let participants := st.wagerParticipants wagerId
  if w.status = 1 then
    if 0 < participants.length then
      if isParticipant participants winner then
        if w.amount * participants.length < U256 then
          let totalAmount := w.amount * participants.length
          if w.charityEnabled = true ∧ 0 < w.charityPercentage ∧
              w.charityAddress ≠ 0 then
            if totalAmount * w.charityPercentage < U256 then
              let charityAmount := totalAmount * w.charityPercentage / 100
              if env.canReceive w.charityAddress then
                if charityAmount ≤ totalAmount then
                  if env.canReceive winner then
                    .ok ({ st with
                            wagers := updf st.wagers wagerId
                              { w with status := 2, winner := winner },
                            resolvedAt := updf st.resolvedAt wagerId
                              (env.timestamp % 2 ^ 64),
                            charityDonated := updf st.charityDonated wagerId
                              charityAmount },
                         [(w.charityAddress, charityAmount),
                          (winner, totalAmount - charityAmount)])
                  else .error "winner transfer failed"
                else .error "arithmetic underflow"
              else .error "charity transfer failed"
            else .error "arithmetic overflow"
          else
            if env.canReceive winner then
              .ok ({ st with
                      wagers := updf st.wagers wagerId
                        { w with status := 2, winner := winner },
                      resolvedAt := updf st.resolvedAt wagerId
                        (env.timestamp % 2 ^ 64) },
                   [(winner, totalAmount)])
            else .error "winner transfer failed"
        else .error "arithmetic overflow"
      else .error "WinnerMustBeParticipant"
    else .error "WagerNotActive"
  else .error "WagerNotActive"

/-- `WagerContractGasOptimized.cancelWager`: reverts with `CannotCancel` when
`status > 1`; the authorization `||` short-circuits, so `participants[0]` is
only read (and panics on an empty array) for a non-owner caller. -/
def cancelWager (st : GState) (env : Env) (wagerId : Nat) :
    Except String (GState × List (Address × Nat)) :=
  let w := st.wagers wagerId
  let participants := st.wagerParticipants wagerId
  let refund : Except String (GState × List (Address × Nat)) :=
    if participants.all env.canReceive then
      .ok ({ st with wagers := updf st.wagers wagerId { w with status := 3 } },
           participants.map fun p => (p, w.amount))
    else .error "refund transfer failed"
  if w.status ≤ 1 then
    if env.sender = st.owner then refund
    else if participants = [] then .error "panic: array out-of-bounds access"
    else if env.sender = participants.headI then refund
    else .error "NotAuthorized"
  else .error "CannotCancel"

/-- Transaction semantics of a call returning an id (gas-optimized state). -/
def gwrapCreate (st : GState) : Except String (GState × Nat) → GState × StepOut
  | .ok (st2, wid) => (st2, ⟨true, [], some wid⟩)
  | .error _ => (st, ⟨false, [], none⟩)

/-- Transaction semantics of a call returning nothing (gas-optimized state). -/
def gwrapAccept (st : GState) : Except String GState → GState × StepOut
  | .ok st2 => (st2, ⟨true, [], none⟩)
  | .error _ => (st, ⟨false, [], none⟩)

/-- Transaction semantics of a call performing value transfers
(gas-optimized state). -/
def gwrapMoves (st : GState) :
    Except String (GState × List (Address × Nat)) → GState × StepOut
  | .ok (st2, trs) => (st2, ⟨true, trs, none⟩)
  | .error _ => (st, ⟨false, [], none⟩)

/-- Transaction-level semantics of one call to the gas-optimized contract. -/
def gstep (st : GState) (env : Env) : Call → GState × StepOut
  | .create ps amt cond ce cp ca =>
    gwrapCreate st (createWager st env ps amt cond ce cp ca)
  | .accept wid => gwrapAccept st (acceptWager st env wid)
  | .resolve wid wnr _ev => gwrapMoves st (resolveWager st env wid wnr)
  | .cancel wid => gwrapMoves st (cancelWager st env wid)

/-- Run a list of calls from a state of the gas-optimized contract. -/
def grun (st : GState) : List (Env × Call) → GState
  | [] => st
  | (e, c) :: rest => grun (gstep st e c).1 rest

/-- The per-call observable outcomes of a run. -/
def grunOuts (st : GState) : List (Env × Call) → List StepOut
  | [] => []
  | (e, c) :: rest => (gstep st e c).2 :: grunOuts (gstep st e c).1 rest

/-- Deployment state of the gas-optimized contract. -/
def ginit (owner : Address) : GState :=
  { wagerParticipants := fun _ => [], wagerConditions := fun _ => "",
    wagers := fun _ => zeroGWager, charityDonated := fun _ => 0,
    resolvedAt := fun _ => 0, nextWagerId := 1, owner := owner }

/-- The logical wager record the gas-optimized `getWager` view exposes:
the packed struct joined with the separate mappings, assembled into the
baseline's `Wager` shape. -/
def logicalWager (st : GState) (wagerId : Nat) : Wager :=
  let w := st.wagers wagerId
  { id := w.id, participants := st.wagerParticipants wagerId,
    amount := w.amount, condition := st.wagerConditions wagerId,
    status := w.status, winner := w.winner,
    charityEnabled := w.charityEnabled,
    charityPercentage := w.charityPercentage,
    charityAddress := w.charityAddress,
    charityDonated := st.charityDonated wagerId,
    createdAt := w.createdAt, resolvedAt := st.resolvedAt wagerId }

end WagerContractGasOptimized

namespace WagerContract

/-- A reverted transaction leaves the state untouched and transfers nothing. -/
theorem bstep_fail_frame (st : CState) (env : Env) (c : Call)
    (h : (bstep st env c).2.ok = false) :
    (bstep st env c).1 = st ∧ (bstep st env c).2.transfers = [] := by
  cases c with
  | create ps amt cond ce cp ca =>
    simp only [bstep] at h ⊢
    rcases hr : createWager st env ps amt cond ce cp ca with e | ⟨st2, wid⟩
    · exact ⟨rfl, rfl⟩
    · rw [hr] at h
      simp [wrapCreate] at h
  | accept wid =>
    simp only [bstep] at h ⊢
    rcases hr : acceptWager st env wid with e | st2
    · exact ⟨rfl, rfl⟩
    · rw [hr] at h
      simp [wrapAccept] at h
  | resolve wid wnr ev =>
    simp only [bstep] at h ⊢
    rcases hr : resolveWager st env wid wnr ev with e | ⟨st2, trs⟩
    · exact ⟨rfl, rfl⟩
    · rw [hr] at h
      simp [wrapMoves] at h
  | cancel wid =>
    simp only [bstep] at h ⊢
    rcases hr : cancelWager st env wid with e | ⟨st2, trs⟩
    · exact ⟨rfl, rfl⟩
    · rw [hr] at h
      simp [wrapMoves] at h

/-- Success of a `createWager` transaction, as a condition tree. -/
theorem bstep_create_ok (st : CState) (env : Env) (ps : List Address)
    (amt : Nat) (cond : String) (ce : Bool) (cp : Nat) (ca : Address) :
    (bstep st env (.create ps amt cond ce cp ca)).2.ok =
      if amt ≤ env.value then
        if 2 ≤ ps.length then
          if cp ≤ 100 then
            if st.nextWagerId + 1 < U256 then true else false
          else false
        else false
      else false := by
  rw [bstep_create_eq]
  simp only [apply_ite (fun p : CState × StepOut => p.2.ok)]

/-- Success of an `acceptWager` transaction, as a condition tree. -/
theorem bstep_accept_ok (st : CState) (env : Env) (wid : Nat) :
    (bstep st env (.accept wid)).2.ok =
      if (st.wagers wid).status = 0 then
        if (st.wagers wid).amount ≤ env.value then
          if isParticipant (st.wagers wid).participants env.sender then true
          else false
        else false
      else false := by
  rw [bstep_accept_eq]
  simp only [apply_ite (fun p : CState × StepOut => p.2.ok)]

/-- Success of a `resolveWager` transaction, as a condition tree. -/
theorem bstep_resolve_ok (st : CState) (env : Env) (wid : Nat)
    (wnr : Address) (ev : String) :
    (bstep st env (.resolve wid wnr ev)).2.ok =
      if (st.wagers wid).status = 1 then
        if 0 < (st.wagers wid).participants.length then
          if isParticipant (st.wagers wid).participants wnr then
            if (st.wagers wid).amount * (st.wagers wid).participants.length <
                U256 then
              if (st.wagers wid).charityEnabled = true ∧
                  0 < (st.wagers wid).charityPercentage ∧
                  (st.wagers wid).charityAddress ≠ 0 then
                if (st.wagers wid).amount *
                    (st.wagers wid).participants.length *
                    (st.wagers wid).charityPercentage < U256 then
                  if env.canReceive (st.wagers wid).charityAddress then
                    if (st.wagers wid).amount *
                        (st.wagers wid).participants.length *
                        (st.wagers wid).charityPercentage / 100 ≤
                        (st.wagers wid).amount *
                          (st.wagers wid).participants.length then
                      if env.canReceive wnr then true else false
                    else false
                  else false
                else false
              else if env.canReceive wnr then true else false
            else false
          else false
        else false
      else false := by
  rw [bstep_resolve_eq]
  simp only [apply_ite (fun p : CState × StepOut => p.2.ok)]

/-- Success of a `cancelWager` transaction, as a condition tree. -/
theorem bstep_cancel_ok (st : CState) (env : Env) (wid : Nat) :
    (bstep st env (.cancel wid)).2.ok =
      if (st.wagers wid).status = 0 ∨ (st.wagers wid).status = 1 then
        if env.sender = st.owner then
          (if (st.wagers wid).participants.all env.canReceive then true
           else false)
        else if (st.wagers wid).participants = [] then false
        else if env.sender = (st.wagers wid).participants.headI then
          (if (st.wagers wid).participants.all env.canReceive then true
           else false)
        else false
      else false := by
  rw [bstep_cancel_eq]
  simp only [apply_ite (fun p : CState × StepOut => p.2.ok)]

/-- A call either is a successful `createWager`, returning the current counter
and bumping it, or returns no id and leaves the counter alone. -/
theorem bstep_created_cases (st : CState) (env : Env) (c : Call) :
    ((∃ ps amt cond ce cp ca, c = Call.create ps amt cond ce cp ca) ∧
      (bstep st env c).2.created = some st.nextWagerId ∧
      (bstep st env c).1.nextWagerId = st.nextWagerId + 1) ∨
    ((bstep st env c).2.created = none ∧
      (bstep st env c).1.nextWagerId = st.nextWagerId) := by
  cases c with
  | create ps amt cond ce cp ca =>
    rw [bstep_create_eq]
    split_ifs <;> first
    | exact Or.inl ⟨⟨ps, amt, cond, ce, cp, ca, rfl⟩, rfl, by simp⟩
    | exact Or.inr ⟨rfl, rfl⟩
  | accept wid =>
    simp only [bstep]
    rcases hr : acceptWager st env wid with e | st2
    · exact Or.inr ⟨rfl, rfl⟩
    · refine Or.inr ⟨rfl, ?_⟩
      simp only [acceptWager] at hr
      split_ifs at hr <;> first
      | (injection hr with hr2; rw [show (wrapAccept st (Except.ok st2)).1 = st2 from rfl, ← hr2]; simp)
      | exact Except.noConfusion hr
  | resolve wid wnr ev =>
    simp only [bstep]
    rcases hr : resolveWager st env wid wnr ev with e | ⟨st2, trs⟩
    · exact Or.inr ⟨rfl, rfl⟩
    · refine Or.inr ⟨rfl, ?_⟩
      simp only [resolveWager] at hr
      split_ifs at hr <;> first
      | (injection hr with hr2; injection hr2 with hr3 hr4;
         rw [show (wrapMoves st (Except.ok (st2, trs))).1 = st2 from rfl, ← hr3]; simp)
      | exact Except.noConfusion hr
  | cancel wid =>
    simp only [bstep]
    rcases hr : cancelWager st env wid with e | ⟨st2, trs⟩
    · exact Or.inr ⟨rfl, rfl⟩
    · refine Or.inr ⟨rfl, ?_⟩
      simp only [cancelWager] at hr
      split_ifs at hr <;> first
      | (injection hr with hr2; injection hr2 with hr3 hr4;
         rw [show (wrapMoves st (Except.ok (st2, trs))).1 = st2 from rfl, ← hr3]; simp)
      | exact Except.noConfusion hr

/-- The ids handed out along a run form the contiguous block starting at the
current counter. -/
theorem brunIds_spec (st : CState) (tr : List (Env × Call)) :
    ∃ k, brunIds st tr = List.range' st.nextWagerId k ∧
      (brun st tr).nextWagerId = st.nextWagerId + k := by
  induction tr generalizing st with
  | nil => exact ⟨0, rfl, rfl⟩
  | cons x rest ih =>
    obtain ⟨e, c⟩ := x
    obtain ⟨k, hk1, hk2⟩ := ih (bstep st e c).1
    rcases bstep_created_cases st e c with ⟨-, hcr, hnx⟩ | ⟨hcr, hnx⟩
    · refine ⟨k + 1, ?_, ?_⟩
      · simp only [brunIds, hcr, Option.toList_some]
        rw [hk1, hnx, List.range'_succ]
        rfl
      · simp only [brun]
        rw [hk2, hnx]
        omega
    · refine ⟨k, ?_, ?_⟩
      · simp only [brunIds, hcr, Option.toList_none, List.nil_append]
        rw [hk1, hnx]
      · simp only [brun]
        rw [hk2, hnx]

/-- A successful `resolveWager` leaves the target wager with status 2. -/
theorem resolve_sets_status (st : CState) (env : Env) (wid wnr : Nat)
    (ev : String)
    (hok : (bstep st env (.resolve wid wnr ev)).2.ok = true) :
    ((bstep st env (.resolve wid wnr ev)).1.wagers wid).status = 2 := by
  rw [bstep_resolve_ok] at hok
  split_ifs at hok with h1 h2 h3 h4 h5 h6 h7 h8 h9 h10 <;>
  first
  | exact absurd hok (by decide)
  | (rw [bstep_resolve_eq, if_pos h1, if_pos h2, if_pos h3, if_pos h4,
       if_pos h5, if_pos (by assumption), if_pos (by assumption),
       if_pos (by assumption), if_pos (by assumption)]
     dsimp only
     rw [setWager_wagers_same])
  | (rw [bstep_resolve_eq, if_pos h1, if_pos h2, if_pos h3, if_pos h4,
       if_neg h5, if_pos (by assumption)]
     dsimp only
     rw [setWager_wagers_same])

end WagerContract

/-- A transfer environment in which every address accepts payment. -/
def allGood : Address → Bool := fun _ => true

/-- Creator environment for the concrete scenarios. -/
def envC : Env := { sender := 1, value := 100, timestamp := 5, canReceive := allGood }

/-- Acceptor environment for the concrete scenarios. -/
def envA : Env := { sender := 2, value := 100, timestamp := 6, canReceive := allGood }

/-- Owner environment for the concrete scenarios. -/
def envR : Env := { sender := 100, value := 0, timestamp := 7, canReceive := allGood }

/-- Environment in which no address accepts a transfer. -/
def envDead : Env := { sender := 100, value := 0, timestamp := 7, canReceive := fun _ => false }

/-- A creation call: participants 1 and 2, stake 100, charity 10% to 7. -/
def wtCreate : Call := Call.create [1, 2] 100 "c" true 10 7

/-- Deployment by owner 100. -/
def st0 : CState := WagerContract.initState 100

/-- After the creation call. -/
def st1 : CState := (WagerContract.bstep st0 envC wtCreate).1

/-- After participant 2 accepts wager 1. -/
def st2 : CState := (WagerContract.bstep st1 envA (Call.accept 1)).1

/-- After wager 1 is resolved with winner 1. -/
def st3 : CState := (WagerContract.bstep st2 envR (Call.resolve 1 1 "ev")).1

/-- Trace reaching `st2`. -/
def tr2 : List (Env × Call) := [(envC, wtCreate), (envA, Call.accept 1)]

/-- Trace reaching `st3`. -/
def tr3 : List (Env × Call) :=
  [(envC, wtCreate), (envA, Call.accept 1), (envR, Call.resolve 1 1 "ev")]

/-- Trace reaching `st1`. -/
def tr1 : List (Env × Call) := [(envC, wtCreate)]

/-- C1: on every successful `resolveWager` of a wager with
`charityPercentage ≤ 100` and `charityDonated = 0`, the transferred amounts
sum exactly to `amount × participants.length` (no dust); when
`charityEnabled ∧ charityPercentage > 0 ∧ charityAddress ≠ 0` the charity
receives `floor(totalPool × charityPercentage / 100)`, recorded in
`charityDonated`, and the winner the remainder; otherwise the winner receives
the whole pool and `charityDonated` stays 0. -/
theorem C1_resolve_payout (st : CState) (env : Env) (wid wnr : Nat)
    (ev : String)
    (hpct : (st.wagers wid).charityPercentage ≤ 100)
    (hdon : (st.wagers wid).charityDonated = 0)
    (hok : (WagerContract.bstep st env (Call.resolve wid wnr ev)).2.ok = true) :
    (((WagerContract.bstep st env (Call.resolve wid wnr ev)).2.transfers.map
        Prod.snd).sum =
      (st.wagers wid).amount * (st.wagers wid).participants.length) ∧
    ((st.wagers wid).charityEnabled = true ∧
        0 < (st.wagers wid).charityPercentage ∧
        (st.wagers wid).charityAddress ≠ 0 →
      (WagerContract.bstep st env (Call.resolve wid wnr ev)).2.transfers =
        [((st.wagers wid).charityAddress,
          (st.wagers wid).amount * (st.wagers wid).participants.length *
            (st.wagers wid).charityPercentage / 100),
         (wnr,
          (st.wagers wid).amount * (st.wagers wid).participants.length -
            (st.wagers wid).amount * (st.wagers wid).participants.length *
              (st.wagers wid).charityPercentage / 100)] ∧
      ((WagerContract.bstep st env (Call.resolve wid wnr ev)).1.wagers
          wid).charityDonated =
        (st.wagers wid).amount * (st.wagers wid).participants.length *
          (st.wagers wid).charityPercentage / 100) ∧
    (¬ ((st.wagers wid).charityEnabled = true ∧
        0 < (st.wagers wid).charityPercentage ∧
        (st.wagers wid).charityAddress ≠ 0) →
      (WagerContract.bstep st env (Call.resolve wid wnr ev)).2.transfers =
        [(wnr, (st.wagers wid).amount * (st.wagers wid).participants.length)] ∧
      ((WagerContract.bstep st env (Call.resolve wid wnr ev)).1.wagers
          wid).charityDonated = 0) := by
  rw [WagerContract.bstep_resolve_ok] at hok
  split_ifs at hok with h1 h2 h3 h4 h5 h6 h7 h8 h9 h10 <;>
  first
  | exact absurd hok (by decide)
  | -- success, charity branch
    (rw [WagerContract.bstep_resolve_eq, if_pos h1, if_pos h2, if_pos h3,
       if_pos h4, if_pos h5, if_pos (by assumption), if_pos (by assumption),
       if_pos (by assumption), if_pos (by assumption)]
     dsimp only
     refine ⟨?_, fun _ => ⟨rfl, ?_⟩, fun hnc => absurd h5 hnc⟩
     · simp only [List.map_cons, List.map_nil, List.sum_cons, List.sum_nil]
       omega
     · rw [setWager_wagers_same])
  | -- success, no-charity branch
    (rw [WagerContract.bstep_resolve_eq, if_pos h1, if_pos h2, if_pos h3,
       if_pos h4, if_neg h5, if_pos (by assumption)]
     dsimp only
     refine ⟨?_, fun hc => absurd hc h5, fun _ => ⟨rfl, ?_⟩⟩
     · simp only [List.map_cons, List.map_nil, List.sum_cons, List.sum_nil]
       omega
     · rw [setWager_wagers_same]
       exact hdon)

/-- C1 witness at the concrete charity scenario. -/
theorem C1_witness :
    ((WagerContract.bstep st2 envR (Call.resolve 1 1 "ev")).2.transfers.map
        Prod.snd).sum =
      (st2.wagers 1).amount * (st2.wagers 1).participants.length :=
  (C1_resolve_payout st2 envR 1 1 "ev" (by decide) (by decide) (by decide)).1

/-- Owner environment used to cancel a not-yet-created wager id. -/
def envPhantom : Env := { sender := 100, value := 0, timestamp := 4, canReceive := allGood }

/-- State after the owner cancels the never-created wager id 1 on a fresh
contract. -/
def stPhantom : CState := (WagerContract.bstep st0 envPhantom (Call.cancel 1)).1

/-- C2 counterexample: on a fresh contract the owner can successfully
`cancelWager` the never-created id 1 (its zero-initialised slot is Pending
and the refund loop is empty), leaving slot 1 Cancelled; a subsequent
successful `createWager` then overwrites that slot back to Pending — a
successful call changes the status of a Cancelled wager id, refuting the
claim as stated. -/
theorem C2_counterexample :
    (WagerContract.bstep st0 envPhantom (Call.cancel 1)).2.ok = true ∧
    (stPhantom.wagers 1).status = 3 ∧
    (WagerContract.bstep stPhantom envC wtCreate).2.ok = true ∧
    (WagerContract.bstep stPhantom envC wtCreate).2.created = some 1 ∧
    ((WagerContract.bstep stPhantom envC wtCreate).1.wagers 1).status = 0 := by
  decide

/-- C2 (amended): for every wager id already assigned by `createWager`
(`1 ≤ id < nextWagerId` in a reachable state), a call either leaves the
status unchanged or moves it along one of the edges Pending→Active
(`acceptWager`), Active→Resolved (`resolveWager`), Pending/Active→Cancelled
(`cancelWager`); Resolved and Cancelled are terminal; and a second
`resolveWager` on the same id always fails. -/
theorem C2_status_machine (st : CState) (env : Env) (c : Call) (wid : Nat)
    (hre : WagerContract.Reachable st) (h1 : 1 ≤ wid)
    (h2 : wid < st.nextWagerId) :
    (((WagerContract.bstep st env c).1.wagers wid).status =
        (st.wagers wid).status ∨
      ((st.wagers wid).status = 0 ∧
        ((WagerContract.bstep st env c).1.wagers wid).status = 1 ∧
        c = Call.accept wid) ∨
      ((st.wagers wid).status = 1 ∧
        ((WagerContract.bstep st env c).1.wagers wid).status = 2 ∧
        ∃ w e, c = Call.resolve wid w e) ∨
      (((st.wagers wid).status = 0 ∨ (st.wagers wid).status = 1) ∧
        ((WagerContract.bstep st env c).1.wagers wid).status = 3 ∧
        c = Call.cancel wid)) ∧
    ((st.wagers wid).status = 2 ∨ (st.wagers wid).status = 3 →
      ((WagerContract.bstep st env c).1.wagers wid).status =
        (st.wagers wid).status) ∧
    (∀ wnr ev wnr2 ev2 env2,
      (WagerContract.bstep st env (Call.resolve wid wnr ev)).2.ok = true →
      (WagerContract.bstep
        (WagerContract.bstep st env (Call.resolve wid wnr ev)).1 env2
        (Call.resolve wid wnr2 ev2)).2.ok = false) := by
  have key :
      ((WagerContract.bstep st env c).1.wagers wid).status =
        (st.wagers wid).status ∨
      ((st.wagers wid).status = 0 ∧
        ((WagerContract.bstep st env c).1.wagers wid).status = 1 ∧
        c = Call.accept wid) ∨
      ((st.wagers wid).status = 1 ∧
        ((WagerContract.bstep st env c).1.wagers wid).status = 2 ∧
        ∃ w e, c = Call.resolve wid w e) ∨
      (((st.wagers wid).status = 0 ∨ (st.wagers wid).status = 1) ∧
        ((WagerContract.bstep st env c).1.wagers wid).status = 3 ∧
        c = Call.cancel wid) := by
    cases c with
    | create ps amt cond ce cp ca =>
      rw [WagerContract.bstep_create_eq]
      split_ifs <;> first
      | exact Or.inl rfl
      | (refine Or.inl ?_
         dsimp only
         simp only [bumpId_wagers]
         rw [setWager_wagers_ne _ _ _ _ (by omega)])
    | accept wid2 =>
      rw [WagerContract.bstep_accept_eq]
      split_ifs with g1 g2 g3 <;> try exact Or.inl rfl
      dsimp only
      by_cases he : wid = wid2
      · subst he
        rw [setWager_wagers_same]
        exact Or.inr (Or.inl ⟨g1, rfl, rfl⟩)
      · rw [setWager_wagers_ne _ _ _ _ he]
        exact Or.inl rfl
    | resolve wid2 wnr ev =>
      rw [WagerContract.bstep_resolve_eq]
      split_ifs with g1 g2 g3 g4 g5 g6 g7 g8 g9 g10 <;> try exact Or.inl rfl
      all_goals (dsimp only; by_cases he : wid = wid2)
      · subst he
        rw [setWager_wagers_same]
        exact Or.inr (Or.inr (Or.inl ⟨g1, rfl, wnr, ev, rfl⟩))
      · rw [setWager_wagers_ne _ _ _ _ he]
        exact Or.inl rfl
      · subst he
        rw [setWager_wagers_same]
        exact Or.inr (Or.inr (Or.inl ⟨g1, rfl, wnr, ev, rfl⟩))
      · rw [setWager_wagers_ne _ _ _ _ he]
        exact Or.inl rfl
    | cancel wid2 =>
      rw [WagerContract.bstep_cancel_eq]
      split_ifs with g1 g2 g3 g4 g5 g6 <;> try exact Or.inl rfl
      all_goals (dsimp only; by_cases he : wid = wid2)
      · subst he
        rw [setWager_wagers_same]
        exact Or.inr (Or.inr (Or.inr ⟨g1, rfl, rfl⟩))
      · rw [setWager_wagers_ne _ _ _ _ he]
        exact Or.inl rfl
      · subst he
        rw [setWager_wagers_same]
        exact Or.inr (Or.inr (Or.inr ⟨g1, rfl, rfl⟩))
      · rw [setWager_wagers_ne _ _ _ _ he]
        exact Or.inl rfl
  refine ⟨key, ?_, ?_⟩
  · intro hterm
    rcases key with k | ⟨k1, _, _⟩ | ⟨k1, _, _⟩ | ⟨k1, _, _⟩
    · exact k
    · omega
    · omega
    · omega
  · intro wnr ev wnr2 ev2 env2 hok1
    have hst2 := WagerContract.resolve_sets_status st env wid wnr ev hok1
    rw [WagerContract.bstep_resolve_ok, if_neg (by rw [hst2]; decide)]

/-- C2 witness for the amended theorem: the second resolution of the already
resolved wager 1 fails. -/
theorem C2_witness :
    (WagerContract.bstep st3 envR (Call.resolve 1 2 "e2")).2.ok = false :=
  (C2_status_machine st2 envR (Call.resolve 1 1 "ev") 1 ⟨100, tr2, rfl⟩
    (by decide) (by decide)).2.2 1 "ev" 2 "e2" envR (by decide)

/-- C3: a `cancelWager` call succeeds exactly when the wager's status is
Pending or Active, the caller is the contract owner or `participants[0]`,
and every refund transfer goes through; on success the status becomes
Cancelled and exactly `wager.amount` is transferred to every entry of
`participants`, in list order. -/
theorem C3_cancel (st : CState) (env : Env) (wid : Nat) :
    ((WagerContract.bstep st env (Call.cancel wid)).2.ok = true ↔
      (((st.wagers wid).status = 0 ∨ (st.wagers wid).status = 1) ∧
       (env.sender = st.owner ∨
        ((st.wagers wid).participants ≠ [] ∧
         env.sender = (st.wagers wid).participants.headI)) ∧
       (st.wagers wid).participants.all env.canReceive = true)) ∧
    ((WagerContract.bstep st env (Call.cancel wid)).2.ok = true →
      ((WagerContract.bstep st env (Call.cancel wid)).1.wagers wid).status = 3 ∧
      (WagerContract.bstep st env (Call.cancel wid)).2.transfers =
        (st.wagers wid).participants.map fun p => (p, (st.wagers wid).amount)) := by
  constructor
  · rw [WagerContract.bstep_cancel_ok]
    constructor
    · intro h
      split_ifs at h with g1 g2 g3 g4 g5 g6 <;> first
      | exact ⟨g1, Or.inl (by assumption), by assumption⟩
      | exact ⟨g1, Or.inr ⟨by assumption, by assumption⟩, by assumption⟩
      | exact absurd h (by decide)
    · rintro ⟨hs, hauth, hall⟩
      split_ifs with g1 g2 g3 g4 g5 g6 <;> first
      | rfl
      | exact absurd hs (by assumption)
      | exact absurd hall (by simp only [Bool.not_eq_true]; assumption)
      | (rcases hauth with ha | ⟨hne, hh⟩
         · exact absurd ha (by assumption)
         · first
           | exact absurd (by assumption) hne
           | exact absurd hh (by assumption)
           | exact absurd hall (by simp only [Bool.not_eq_true]; assumption))
  · intro hok
    rw [WagerContract.bstep_cancel_ok] at hok
    split_ifs at hok with g1 g2 g3 g4 g5 g6 <;>
    first
    | exact absurd hok (by decide)
    | (rw [WagerContract.bstep_cancel_eq, if_pos g1, if_pos g2,
         if_pos (by assumption)]
       dsimp only
       rw [setWager_wagers_same]
       exact ⟨rfl, rfl⟩)
    | (rw [WagerContract.bstep_cancel_eq, if_pos g1, if_neg g2,
         if_neg (by assumption), if_pos (by assumption), if_pos (by assumption)]
       dsimp only
       rw [setWager_wagers_same]
       exact ⟨rfl, rfl⟩)

/-- C3 witness: the owner cancels the pending wager 1; status becomes 3 and
both participants are refunded the stake. -/
theorem C3_witness :
    ((WagerContract.bstep st1 envR (Call.cancel 1)).1.wagers 1).status = 3 ∧
    (WagerContract.bstep st1 envR (Call.cancel 1)).2.transfers =
      ((st1.wagers 1).participants.map fun p => (p, (st1.wagers 1).amount)) :=
  (C3_cancel st1 envR 1).2 (by decide)

/-- C4: `acceptWager` succeeds exactly when the target wager has status
Pending, the caller is a member of its participants, and the attached payment
covers the stake; every failing call leaves the state and transfers
untouched; and in a reachable state a wager id that was never assigned by
`createWager` is always rejected. -/
theorem C4_accept (st : CState) (env : Env) (wid : Nat) :
    ((WagerContract.bstep st env (Call.accept wid)).2.ok = true ↔
      ((st.wagers wid).status = 0 ∧
       isParticipant (st.wagers wid).participants env.sender = true ∧
       (st.wagers wid).amount ≤ env.value)) ∧
    ((WagerContract.bstep st env (Call.accept wid)).2.ok = false →
      (WagerContract.bstep st env (Call.accept wid)).1 = st ∧
      (WagerContract.bstep st env (Call.accept wid)).2.transfers = []) ∧
    (WagerContract.Reachable st → st.nextWagerId ≤ wid ∨ wid = 0 →
      (WagerContract.bstep st env (Call.accept wid)).2.ok = false) := by
  refine ⟨?_, fun h => WagerContract.bstep_fail_frame st env _ h, ?_⟩
  · rw [WagerContract.bstep_accept_ok]
    constructor
    · intro h
      split_ifs at h with g1 g2 g3 <;> first
      | exact ⟨g1, g3, g2⟩
      | exact absurd h (by decide)
    · rintro ⟨ha, hb, hc2⟩
      rw [if_pos ha, if_pos hc2, if_pos hb]
  · intro hre hw
    obtain ⟨-, hph, -⟩ := WagerContract.inv_reachable st hre
    have hp := hph wid (by omega)
    rw [WagerContract.bstep_accept_ok]
    rcases hp with hp | hp <;> rw [hp]
    · simp [zeroWager, isParticipant]
    · simp [zeroWager]

/-- C4 witness: accepting the never-created wager id 5 on a fresh contract is
rejected. -/
theorem C4_witness :
    (WagerContract.bstep st0 envA (Call.accept 5)).2.ok = false :=
  (C4_accept st0 envA 5).2.2 ⟨100, [], rfl⟩ (Or.inl (by decide))

/-- C5: every failing call leaves the contract state exactly as before and
performs no transfer; a `resolveWager` whose winner (or enabled charity
address) rejects the value transfer always fails, and a `cancelWager` with a
participant that rejects its refund always fails — so no partial payout or
partial field update is ever observable. -/
theorem C5_atomicity (st : CState) (env : Env) (c : Call) (wid wnr : Nat)
    (ev : String) (p : Address) :
    ((WagerContract.bstep st env c).2.ok = false →
      (WagerContract.bstep st env c).1 = st ∧
      (WagerContract.bstep st env c).2.transfers = []) ∧
    (env.canReceive wnr = false →
      (WagerContract.bstep st env (Call.resolve wid wnr ev)).2.ok = false) ∧
    ((st.wagers wid).charityEnabled = true →
      0 < (st.wagers wid).charityPercentage →
      (st.wagers wid).charityAddress ≠ 0 →
      env.canReceive (st.wagers wid).charityAddress = false →
      (WagerContract.bstep st env (Call.resolve wid wnr ev)).2.ok = false) ∧
    (p ∈ (st.wagers wid).participants → env.canReceive p = false →
      (WagerContract.bstep st env (Call.cancel wid)).2.ok = false) := by
  refine ⟨fun h => WagerContract.bstep_fail_frame st env c h, ?_, ?_, ?_⟩
  · intro hdead
    rw [WagerContract.bstep_resolve_ok]
    simp [hdead, ite_self]
  · intro hce hpc haddr hdead
    rw [WagerContract.bstep_resolve_ok]
    simp [hdead, hce, hpc, haddr, ite_self]
  · intro hp hdead
    have hall : ¬ ((st.wagers wid).participants.all env.canReceive = true) := by
      intro hc
      have := List.all_eq_true.mp hc p hp
      rw [hdead] at this
      exact Bool.noConfusion this
    rw [WagerContract.bstep_cancel_ok]
    simp only [Bool.not_eq_true] at hall
    simp [hall, ite_self]

/-- C5 witness: resolving the active wager 1 in an environment where the
winner rejects transfers fails. -/
theorem C5_witness :
    (WagerContract.bstep st2 envDead (Call.resolve 1 1 "ev")).2.ok = false :=
  (C5_atomicity st2 envDead (Call.accept 1) 1 1 "ev" 2).2.1 (by rfl)

/-- C7: the wager-id counter starts at 1 and the ids returned by the
successful `createWager` calls of any run from deployment form the contiguous
strictly increasing block `1, 2, …, k` — ids are assigned by an atomic
increment, never reused, and the first wager gets id 1. -/
theorem C7_monotonic_ids (o : Address) (tr : List (Env × Call)) :
    (WagerContract.initState o).nextWagerId = 1 ∧
    ∃ k, WagerContract.brunIds (WagerContract.initState o) tr =
        List.range' 1 k ∧
      List.Pairwise (fun a b => a < b)
        (WagerContract.brunIds (WagerContract.initState o) tr) := by
  obtain ⟨k, hk, -⟩ := WagerContract.brunIds_spec (WagerContract.initState o) tr
  refine ⟨rfl, k, hk, ?_⟩
  rw [hk]
  exact List.pairwise_lt_range' 1 k

/-- C8: in every reachable state, a wager whose status is Resolved has a
winner drawn from its own participants list. -/
theorem C8_winner_is_participant (st : CState)
    (h : WagerContract.Reachable st) (wid : Nat)
    (hres : (st.wagers wid).status = 2) :
    isParticipant (st.wagers wid).participants (st.wagers wid).winner = true := by
  obtain ⟨hn, hph, hcr⟩ := WagerContract.inv_reachable st h
  by_cases hc : 1 ≤ wid ∧ wid < st.nextWagerId
  · exact (hcr wid hc.1 hc.2).2.2 hres
  · have hp := hph wid (by omega)
    rcases hp with hp | hp <;> rw [hp] at hres <;> exact absurd hres (by decide)

/-- C8 witness at the concrete resolved wager. -/
theorem C8_witness :
    isParticipant ((st3.wagers 1).participants) ((st3.wagers 1).winner) = true :=
  C8_winner_is_participant st3 ⟨100, tr3, rfl⟩ 1 (by decide)

set_option maxHeartbeats 1000000 in
/-- C9: every wager created by `createWager` has at least two participants;
no call ever changes an existing wager's participants list; and consequently
the out-of-bounds branch of `cancelWager`'s `participants[0]` access is
unreachable for created wagers. -/
theorem C9_participants (st : CState) (h : WagerContract.Reachable st)
    (wid : Nat) (h1 : 1 ≤ wid) (h2 : wid < st.nextWagerId) :
    2 ≤ (st.wagers wid).participants.length ∧
    (∀ env c, ((WagerContract.bstep st env c).1.wagers wid).participants =
      (st.wagers wid).participants) ∧
    (∀ env, WagerContract.cancelWager st env wid ≠
      Except.error "panic: array out-of-bounds access") := by
  obtain ⟨hn, hph, hcr⟩ := WagerContract.inv_reachable st h
  have hlen := (hcr wid h1 h2).1
  have hne : (st.wagers wid).participants ≠ [] := by
    intro hc
    rw [hc] at hlen
    exact absurd hlen (by decide)
  refine ⟨hlen, ?_, ?_⟩
  · intro env c
    cases c with
    | create ps amt cond ce cp ca =>
      rw [WagerContract.bstep_create_eq]
      split_ifs <;> dsimp only <;>
        first
        | rfl
        | (simp only [bumpId_wagers]
           rw [setWager_wagers_ne _ _ _ _ (by omega)])
    | accept wid2 =>
      rw [WagerContract.bstep_accept_eq]
      split_ifs <;> dsimp only <;>
        first
        | rfl
        | (by_cases he : wid = wid2
           · subst he
             rw [setWager_wagers_same]
           · rw [setWager_wagers_ne _ _ _ _ he])
    | resolve wid2 wnr ev =>
      rw [WagerContract.bstep_resolve_eq]
      split_ifs <;> dsimp only <;>
        first
        | rfl
        | (by_cases he : wid = wid2
           · subst he
             rw [setWager_wagers_same]
           · rw [setWager_wagers_ne _ _ _ _ he])
    | cancel wid2 =>
      rw [WagerContract.bstep_cancel_eq]
      split_ifs <;> dsimp only <;>
        first
        | rfl
        | (by_cases he : wid = wid2
           · subst he
             rw [setWager_wagers_same]
           · rw [setWager_wagers_ne _ _ _ _ he])
  · intro env
    simp only [WagerContract.cancelWager]
    split_ifs <;> first
    | exact fun hc => Except.noConfusion hc
    | exact absurd (by assumption) hne
    | (intro hc
       injection hc with hs
       exact absurd hs (by decide))

/-- C9 witness on the created wager 1. -/
theorem C9_witness : 2 ≤ ((st1.wagers 1).participants.length) :=
  (C9_participants st1 ⟨100, tr1, rfl⟩ 1 (by decide) (by decide)).1

/-- C10: a successful `acceptWager` changes only the target wager's status
field, from Pending (0) to Active (1); all its other fields, every other
wager, the counter and the owner are unchanged, and no value is transferred. -/
theorem C10_accept_frame (st : CState) (env : Env) (wid : Nat)
    (hok : (WagerContract.bstep st env (Call.accept wid)).2.ok = true) :
    (st.wagers wid).status = 0 ∧
    (WagerContract.bstep st env (Call.accept wid)).1.wagers wid =
      { st.wagers wid with status := 1 } ∧
    (∀ j, j ≠ wid →
      (WagerContract.bstep st env (Call.accept wid)).1.wagers j =
        st.wagers j) ∧
    (WagerContract.bstep st env (Call.accept wid)).1.nextWagerId =
      st.nextWagerId ∧
    (WagerContract.bstep st env (Call.accept wid)).1.owner = st.owner ∧
    (WagerContract.bstep st env (Call.accept wid)).2.transfers = [] := by
  rw [WagerContract.bstep_accept_ok] at hok
  split_ifs at hok with g1 g2 g3
  rw [WagerContract.bstep_accept_eq, if_pos g1, if_pos g2, if_pos g3]
  dsimp only
  refine ⟨g1, ?_, ?_, ?_, ?_, rfl⟩
  · rw [setWager_wagers_same]
  · intro j hj
    rw [setWager_wagers_ne _ _ _ _ hj]
  · rw [setWager_nextWagerId]
  · rw [setWager_owner]

/-- C10 witness: accepting the pending wager 1 flips exactly its status. -/
theorem C10_witness :
    (WagerContract.bstep st1 envA (Call.accept 1)).1.wagers 1 =
      { st1.wagers 1 with status := 1 } :=
  (C10_accept_frame st1 envA 1 (by decide)).2.1

namespace WagerContractGasOptimized

/-- Shape of a gas-optimized `createWager` transaction as an if-chain. -/
theorem gstep_create_eq (st : GState) (env : Env) (ps : List Address)
    (amt : Nat) (cond : String) (ce : Bool) (cp : Nat) (ca : Address) :
    gstep st env (.create ps amt cond ce cp ca) =
      if amt < 2 ^ 128 then
        if amt ≤ env.value then
          if 2 ≤ ps.length then
            if cp ≤ 100 then
              if st.nextWagerId + 1 < U256 then
                ({ st with
                    wagers := updf st.wagers st.nextWagerId
                      { amount := amt, createdAt := env.timestamp % 2 ^ 64,
                        id := st.nextWagerId % 2 ^ 32, status := 0,
                        charityPercentage := cp, charityEnabled := ce,
                        winner := 0, charityAddress := ca },
                    wagerParticipants :=
                      updf st.wagerParticipants st.nextWagerId ps,
                    wagerConditions :=
                      updf st.wagerConditions st.nextWagerId cond,
                    nextWagerId := st.nextWagerId + 1 },
                 ⟨true, [], some st.nextWagerId⟩)
              else (st, ⟨false, [], none⟩)
            else (st, ⟨false, [], none⟩)
          else (st, ⟨false, [], none⟩)
        else (st, ⟨false, [], none⟩)
      else (st, ⟨false, [], none⟩) := by
  simp only [gstep, createWager]
  simp only [apply_ite (gwrapCreate st)]
  rfl

/-- Shape of a gas-optimized `acceptWager` transaction as an if-chain. -/
theorem gstep_accept_eq (st : GState) (env : Env) (wid : Nat) :
    gstep st env (.accept wid) =
      if (st.wagers wid).status = 0 then
        if (st.wagers wid).amount ≤ env.value then
          if isParticipant (st.wagerParticipants wid) env.sender then
            ({ st with
                wagers := updf st.wagers wid
                  { st.wagers wid with status := 1 } },
             ⟨true, [], none⟩)
          else (st, ⟨false, [], none⟩)
        else (st, ⟨false, [], none⟩)
      else (st, ⟨false, [], none⟩) := by
  simp only [gstep, acceptWager]
  simp only [apply_ite (gwrapAccept st)]
  rfl

/-- Shape of a gas-optimized `resolveWager` transaction as an if-chain. -/
theorem gstep_resolve_eq (st : GState) (env : Env) (wid : Nat)
    (wnr : Address) (ev : String) :
    gstep st env (.resolve wid wnr ev) =
      if (st.wagers wid).status = 1 then
        if 0 < (st.wagerParticipants wid).length then
          if isParticipant (st.wagerParticipants wid) wnr then
            if (st.wagers wid).amount * (st.wagerParticipants wid).length <
                U256 then
              if (st.wagers wid).charityEnabled = true ∧
                  0 < (st.wagers wid).charityPercentage ∧
                  (st.wagers wid).charityAddress ≠ 0 then
                if (st.wagers wid).amount *
                    (st.wagerParticipants wid).length *
                    (st.wagers wid).charityPercentage < U256 then
                  if env.canReceive (st.wagers wid).charityAddress then
                    if (st.wagers wid).amount *
                        (st.wagerParticipants wid).length *
                        (st.wagers wid).charityPercentage / 100 ≤
                        (st.wagers wid).amount *
                          (st.wagerParticipants wid).length then
                      if env.canReceive wnr then
                        ({ st with
                            wagers := updf st.wagers wid
                              { st.wagers wid with
                                status := 2, winner := wnr },
                            resolvedAt := updf st.resolvedAt wid
                              (env.timestamp % 2 ^ 64),
                            charityDonated := updf st.charityDonated wid
                              ((st.wagers wid).amount *
                                (st.wagerParticipants wid).length *
                                (st.wagers wid).charityPercentage / 100) },
                         ⟨true,
                          [((st.wagers wid).charityAddress,
                            (st.wagers wid).amount *
                              (st.wagerParticipants wid).length *
                              (st.wagers wid).charityPercentage / 100),
                           (wnr,
                            (st.wagers wid).amount *
                              (st.wagerParticipants wid).length -
                              (st.wagers wid).amount *
                                (st.wagerParticipants wid).length *
                                (st.wagers wid).charityPercentage / 100)],
                          none⟩)
                      else (st, ⟨false, [], none⟩)
                    else (st, ⟨false, [], none⟩)
                  else (st, ⟨false, [], none⟩)
                else (st, ⟨false, [], none⟩)
              else
                if env.canReceive wnr then
                  ({ st with
                      wagers := updf st.wagers wid
                        { st.wagers wid with status := 2, winner := wnr },
                      resolvedAt := updf st.resolvedAt wid
                        (env.timestamp % 2 ^ 64) },
                   ⟨true,
                    [(wnr,
                      (st.wagers wid).amount *
                        (st.wagerParticipants wid).length)],
                    none⟩)
                else (st, ⟨false, [], none⟩)
            else (st, ⟨false, [], none⟩)
          else (st, ⟨false, [], none⟩)
        else (st, ⟨false, [], none⟩)
      else (st, ⟨false, [], none⟩) := by
  simp only [gstep, resolveWager]
  simp only [apply_ite (gwrapMoves st)]
  rfl

/-- Shape of a gas-optimized `cancelWager` transaction as an if-chain. -/
theorem gstep_cancel_eq (st : GState) (env : Env) (wid : Nat) :
    gstep st env (.cancel wid) =
      if (st.wagers wid).status ≤ 1 then
        if env.sender = st.owner then
          (if (st.wagerParticipants wid).all env.canReceive then
            ({ st with
                wagers := updf st.wagers wid
                  { st.wagers wid with status := 3 } },
             ⟨true,
              (st.wagerParticipants wid).map fun p =>
                (p, (st.wagers wid).amount),
              none⟩)
          else (st, ⟨false, [], none⟩))
        else if (st.wagerParticipants wid) = [] then (st, ⟨false, [], none⟩)
        else if env.sender = (st.wagerParticipants wid).headI then
          (if (st.wagerParticipants wid).all env.canReceive then
            ({ st with
                wagers := updf st.wagers wid
                  { st.wagers wid with status := 3 } },
             ⟨true,
              (st.wagerParticipants wid).map fun p =>
                (p, (st.wagers wid).amount),
              none⟩)
          else (st, ⟨false, [], none⟩))
        else (st, ⟨false, [], none⟩)
      else (st, ⟨false, [], none⟩) := by
  simp only [gstep, cancelWager]
  simp only [apply_ite (gwrapMoves st)]
  rfl

end WagerContractGasOptimized

/-- Coupling between a baseline state and a gas-optimized state: same owner,
same counter, and for every id the logical wager record assembled by the
gas-optimized `getWager` equals the baseline record. -/
def BGRel (b : CState) (g : WagerContractGasOptimized.GState) : Prop :=
  b.owner = g.owner ∧ b.nextWagerId = g.nextWagerId ∧
  ∀ id, WagerContractGasOptimized.logicalWager g id = b.wagers id

theorem rel_status {b : CState} {g : WagerContractGasOptimized.GState}
    (h : BGRel b g) (id : Nat) :
    (g.wagers id).status = (b.wagers id).status := by
  have := congrArg Wager.status (h.2.2 id)
  simpa [WagerContractGasOptimized.logicalWager] using this

theorem rel_amount {b : CState} {g : WagerContractGasOptimized.GState}
    (h : BGRel b g) (id : Nat) :
    (g.wagers id).amount = (b.wagers id).amount := by
  have := congrArg Wager.amount (h.2.2 id)
  simpa [WagerContractGasOptimized.logicalWager] using this

theorem rel_participants {b : CState} {g : WagerContractGasOptimized.GState}
    (h : BGRel b g) (id : Nat) :
    g.wagerParticipants id = (b.wagers id).participants := by
  have := congrArg Wager.participants (h.2.2 id)
  simpa [WagerContractGasOptimized.logicalWager] using this

theorem rel_charityEnabled {b : CState} {g : WagerContractGasOptimized.GState}
    (h : BGRel b g) (id : Nat) :
    (g.wagers id).charityEnabled = (b.wagers id).charityEnabled := by
  have := congrArg Wager.charityEnabled (h.2.2 id)
  simpa [WagerContractGasOptimized.logicalWager] using this

theorem rel_charityPercentage {b : CState}
    {g : WagerContractGasOptimized.GState} (h : BGRel b g) (id : Nat) :
    (g.wagers id).charityPercentage = (b.wagers id).charityPercentage := by
  have := congrArg Wager.charityPercentage (h.2.2 id)
  simpa [WagerContractGasOptimized.logicalWager] using this

theorem rel_charityAddress {b : CState} {g : WagerContractGasOptimized.GState}
    (h : BGRel b g) (id : Nat) :
    (g.wagers id).charityAddress = (b.wagers id).charityAddress := by
  have := congrArg Wager.charityAddress (h.2.2 id)
  simpa [WagerContractGasOptimized.logicalWager] using this

theorem rel_charityDonated {b : CState} {g : WagerContractGasOptimized.GState}
    (h : BGRel b g) (id : Nat) :
    g.charityDonated id = (b.wagers id).charityDonated := by
  have := congrArg Wager.charityDonated (h.2.2 id)
  simpa [WagerContractGasOptimized.logicalWager] using this

theorem rel_resolvedAt {b : CState} {g : WagerContractGasOptimized.GState}
    (h : BGRel b g) (id : Nat) :
    g.resolvedAt id = (b.wagers id).resolvedAt := by
  have := congrArg Wager.resolvedAt (h.2.2 id)
  simpa [WagerContractGasOptimized.logicalWager] using this

open WagerContractGasOptimized in
set_option maxHeartbeats 2000000 in
/-- One-step equivalence of the two contracts: from coupled states, under the
representation bounds (timestamp fits `uint64`, a created amount fits
`uint128`, the counter fits `uint32`), the same call produces the same
observable outcome and coupled successor states. -/
theorem step_equiv (b : CState) (g : GState) (env : Env) (c : Call)
    (hrel : BGRel b g) (hinv : WagerContract.Inv b)
    (hts : env.timestamp < 2 ^ 64)
    (hamt : ∀ ps amt cond ce cp ca, c = Call.create ps amt cond ce cp ca →
      amt < 2 ^ 128)
    (hid : ∀ ps amt cond ce cp ca, c = Call.create ps amt cond ce cp ca →
      b.nextWagerId < 2 ^ 32) :
    (gstep g env c).2 = (WagerContract.bstep b env c).2 ∧
    BGRel (WagerContract.bstep b env c).1 (gstep g env c).1 := by
  have hr := hrel
  obtain ⟨hown, hnid, hw⟩ := hrel
  cases c with
  | create ps amt cond ce cp ca =>
    obtain ⟨-, hph, -⟩ := hinv
    have h128 : amt < 2 ^ 128 := hamt ps amt cond ce cp ca rfl
    have h32 : b.nextWagerId < 2 ^ 32 := hid ps amt cond ce cp ca rfl
    have hdon0 : g.charityDonated b.nextWagerId = 0 := by
      rw [rel_charityDonated hr b.nextWagerId]
      rcases hph b.nextWagerId (by omega) with hp | hp <;>
        rw [hp] <;> rfl
    have hres0 : g.resolvedAt b.nextWagerId = 0 := by
      rw [rel_resolvedAt hr b.nextWagerId]
      rcases hph b.nextWagerId (by omega) with hp | hp <;>
        rw [hp] <;> rfl
    rw [WagerContract.bstep_create_eq, gstep_create_eq, ← hnid,
      if_pos h128]
    split_ifs with g1 g2 g3 g4
    · refine ⟨rfl, ?_, ?_, ?_⟩
      · simpa using hown
      · simpa using hnid
      · intro id
        by_cases he : id = b.nextWagerId
        · subst he
          dsimp only
          simp only [bumpId_wagers, setWager_wagers_same]
          simp [WagerContractGasOptimized.logicalWager, updf_same,
            Nat.mod_eq_of_lt, hdon0, hres0]
          omega
        · dsimp only
          simp only [bumpId_wagers]
          rw [setWager_wagers_ne _ _ _ _ he, ← hw id]
          simp [WagerContractGasOptimized.logicalWager,
            updf_ne _ _ _ _ he]
    · exact ⟨rfl, hown, hnid, hw⟩
    · exact ⟨rfl, hown, hnid, hw⟩
    · exact ⟨rfl, hown, hnid, hw⟩
    · exact ⟨rfl, hown, hnid, hw⟩
  | accept wid =>
    rw [WagerContract.bstep_accept_eq, gstep_accept_eq, rel_status hr wid,
      rel_amount hr wid, rel_participants hr wid]
    split_ifs with g1 g2 g3
    · refine ⟨rfl, ?_, ?_, ?_⟩
      · simpa using hown
      · simpa using hnid
      · intro id
        by_cases he : id = wid
        · subst he
          rw [setWager_wagers_same, ← hw id]
          simp [WagerContractGasOptimized.logicalWager, updf_same]
        · rw [setWager_wagers_ne _ _ _ _ he, ← hw id]
          simp [WagerContractGasOptimized.logicalWager,
            updf_ne _ _ _ _ he]
    · exact ⟨rfl, hown, hnid, hw⟩
    · exact ⟨rfl, hown, hnid, hw⟩
    · exact ⟨rfl, hown, hnid, hw⟩
  | resolve wid wnr ev =>
    rw [WagerContract.bstep_resolve_eq, gstep_resolve_eq, rel_status hr wid,
      rel_amount hr wid, rel_participants hr wid, rel_charityEnabled hr wid,
      rel_charityPercentage hr wid, rel_charityAddress hr wid]
    by_cases g1 : (b.wagers wid).status = 1
    · rw [if_pos g1, if_pos g1]
      by_cases g2 : 0 < (b.wagers wid).participants.length
      · rw [if_pos g2, if_pos g2]
        by_cases g3 : isParticipant (b.wagers wid).participants wnr = true
        · rw [if_pos g3, if_pos g3]
          by_cases g4 : (b.wagers wid).amount * (b.wagers wid).participants.length < U256
          · rw [if_pos g4, if_pos g4]
            by_cases g5 : (b.wagers wid).charityEnabled = true ∧ 0 < (b.wagers wid).charityPercentage ∧ (b.wagers wid).charityAddress ≠ 0
            · rw [if_pos g5, if_pos g5]
              by_cases g6 : (b.wagers wid).amount * (b.wagers wid).participants.length * (b.wagers wid).charityPercentage < U256
              · rw [if_pos g6, if_pos g6]
                by_cases g7 : env.canReceive (b.wagers wid).charityAddress = true
                · rw [if_pos g7, if_pos g7]
                  by_cases g8 : (b.wagers wid).amount * (b.wagers wid).participants.length * (b.wagers wid).charityPercentage / 100 ≤ (b.wagers wid).amount * (b.wagers wid).participants.length
                  · rw [if_pos g8, if_pos g8]
                    by_cases g9 : env.canReceive wnr = true
                    · rw [if_pos g9, if_pos g9]
                      refine ⟨rfl, ?_, ?_, ?_⟩
                      · simpa using hown
                      · simpa using hnid
                      · intro id
                        by_cases he : id = wid
                        · subst he
                          rw [setWager_wagers_same, ← hw id]
                          simp [WagerContractGasOptimized.logicalWager, updf_same,
                            Nat.mod_eq_of_lt]
                          try omega
                        · rw [setWager_wagers_ne _ _ _ _ he, ← hw id]
                          simp [WagerContractGasOptimized.logicalWager,
                            updf_ne _ _ _ _ he]
                    · rw [if_neg g9, if_neg g9]
                      exact ⟨rfl, hown, hnid, hw⟩
                  · rw [if_neg g8, if_neg g8]
                    exact ⟨rfl, hown, hnid, hw⟩
                · rw [if_neg g7, if_neg g7]
                  exact ⟨rfl, hown, hnid, hw⟩
              · rw [if_neg g6, if_neg g6]
                exact ⟨rfl, hown, hnid, hw⟩
            · rw [if_neg g5, if_neg g5]
              by_cases g10 : env.canReceive wnr = true
              · rw [if_pos g10, if_pos g10]
                refine ⟨rfl, ?_, ?_, ?_⟩
                · simpa using hown
                · simpa using hnid
                · intro id
                  by_cases he : id = wid
                  · subst he
                    rw [setWager_wagers_same, ← hw id]
                    simp [WagerContractGasOptimized.logicalWager, updf_same,
                      Nat.mod_eq_of_lt]
                    try omega
                  · rw [setWager_wagers_ne _ _ _ _ he, ← hw id]
                    simp [WagerContractGasOptimized.logicalWager,
                      updf_ne _ _ _ _ he]
              · rw [if_neg g10, if_neg g10]
                exact ⟨rfl, hown, hnid, hw⟩
          · rw [if_neg g4, if_neg g4]
            exact ⟨rfl, hown, hnid, hw⟩
        · rw [if_neg g3, if_neg g3]
          exact ⟨rfl, hown, hnid, hw⟩
      · rw [if_neg g2, if_neg g2]
        exact ⟨rfl, hown, hnid, hw⟩
    · rw [if_neg g1, if_neg g1]
      exact ⟨rfl, hown, hnid, hw⟩
  | cancel wid =>
    rw [WagerContract.bstep_cancel_eq, gstep_cancel_eq, rel_status hr wid,
      rel_amount hr wid, rel_participants hr wid, ← hown,
      if_congr (show (b.wagers wid).status ≤ 1 ↔
          ((b.wagers wid).status = 0 ∨ (b.wagers wid).status = 1) by omega)
        rfl rfl]
    by_cases c1 : (b.wagers wid).status = 0 ∨ (b.wagers wid).status = 1
    · rw [if_pos c1, if_pos c1]
      by_cases c2 : env.sender = b.owner
      · rw [if_pos c2, if_pos c2]
        by_cases c3 : (b.wagers wid).participants.all env.canReceive = true
        · rw [if_pos c3, if_pos c3]
          refine ⟨rfl, ?_, ?_, ?_⟩
          · simpa using hown
          · simpa using hnid
          · intro id
            by_cases he : id = wid
            · subst he
              rw [setWager_wagers_same, ← hw id]
              simp [WagerContractGasOptimized.logicalWager, updf_same,
                Nat.mod_eq_of_lt]
              try omega
            · rw [setWager_wagers_ne _ _ _ _ he, ← hw id]
              simp [WagerContractGasOptimized.logicalWager,
                updf_ne _ _ _ _ he]
        · rw [if_neg c3, if_neg c3]
          exact ⟨rfl, hown, hnid, hw⟩
      · rw [if_neg c2, if_neg c2]
        by_cases c4 : (b.wagers wid).participants = []
        · rw [if_pos c4, if_pos c4]
          exact ⟨rfl, hown, hnid, hw⟩
        · rw [if_neg c4, if_neg c4]
          by_cases c5 : env.sender = (b.wagers wid).participants.headI
          · rw [if_pos c5, if_pos c5]
            by_cases c6 : (b.wagers wid).participants.all env.canReceive = true
            · rw [if_pos c6, if_pos c6]
              refine ⟨rfl, ?_, ?_, ?_⟩
              · simpa using hown
              · simpa using hnid
              · intro id
                by_cases he : id = wid
                · subst he
                  rw [setWager_wagers_same, ← hw id]
                  simp [WagerContractGasOptimized.logicalWager, updf_same,
                    Nat.mod_eq_of_lt]
                  try omega
                · rw [setWager_wagers_ne _ _ _ _ he, ← hw id]
                  simp [WagerContractGasOptimized.logicalWager,
                    updf_ne _ _ _ _ he]
            · rw [if_neg c6, if_neg c6]
              exact ⟨rfl, hown, hnid, hw⟩
          · rw [if_neg c5, if_neg c5]
            exact ⟨rfl, hown, hnid, hw⟩
    · rw [if_neg c1, if_neg c1]
      exact ⟨rfl, hown, hnid, hw⟩

/-- Bounds under which the packed representation of the gas-optimized
contract is lossless for one call: the block timestamp fits `uint64` and a
created amount fits the `uint128` parameter type. -/
def BoundedCall : Env × Call → Prop
  | (e, c) => e.timestamp < 2 ^ 64 ∧
      ∀ ps amt cond ce cp ca, c = Call.create ps amt cond ce cp ca →
        amt < 2 ^ 128

/-- Number of `createWager` calls in a trace (successful or not). -/
def countCreates : List (Env × Call) → Nat
  | [] => 0
  | (_, Call.create _ _ _ _ _ _) :: r => countCreates r + 1
  | _ :: r => countCreates r

/-- The deployment states of the two contracts are coupled. -/
theorem rel_init (o : Address) :
    BGRel (WagerContract.initState o) (WagerContractGasOptimized.ginit o) :=
  ⟨rfl, rfl, fun _ => rfl⟩

open WagerContractGasOptimized in
theorem run_equiv_aux (tr : List (Env × Call)) (b : CState) (g : GState)
    (hrel : BGRel b g) (hinv : WagerContract.Inv b)
    (hb : ∀ x ∈ tr, BoundedCall x)
    (hcnt : b.nextWagerId + countCreates tr ≤ 2 ^ 32) :
    grunOuts g tr = WagerContract.brunOuts b tr ∧
    BGRel (WagerContract.brun b tr) (grun g tr) := by
  induction tr generalizing b g with
  | nil => exact ⟨rfl, hrel⟩
  | cons x rest ih =>
    obtain ⟨e, c⟩ := x
    have hbx : BoundedCall (e, c) := hb (e, c) (List.mem_cons_self _ _)
    have hid2 : ∀ ps amt cond ce cp ca,
        c = Call.create ps amt cond ce cp ca → b.nextWagerId < 2 ^ 32 := by
      intro ps amt cond ce cp ca hc
      subst hc
      simp only [countCreates] at hcnt
      omega
    obtain ⟨hout, hrel2⟩ := step_equiv b g e c hrel hinv hbx.1 hbx.2 hid2
    have hinv2 := WagerContract.inv_preserved b e c hinv
    have hcnt2 : (WagerContract.bstep b e c).1.nextWagerId +
        countCreates rest ≤ 2 ^ 32 := by
      rcases WagerContract.bstep_created_cases b e c with
        ⟨⟨ps, amt, cond, ce, cp, ca, hc⟩, -, hnx⟩ | ⟨-, hnx⟩
      · subst hc
        rw [hnx]
        simp only [countCreates] at hcnt
        omega
      · rw [hnx]
        cases c <;> simp only [countCreates] at hcnt <;> omega
    obtain ⟨houts, hrelf⟩ := ih (WagerContract.bstep b e c).1
      (gstep g e c).1 hrel2 hinv2
      (fun x hx => hb x (List.mem_cons_of_mem _ hx)) hcnt2
    refine ⟨?_, hrelf⟩
    simp only [grunOuts, WagerContract.brunOuts]
    rw [hout, houts]

/-- Gas-optimized deployment by owner 100. -/
def g0 : WagerContractGasOptimized.GState := WagerContractGasOptimized.ginit 100

/-- Creation environment with a block timestamp that does not fit `uint64`. -/
def envBig : Env :=
  { sender := 1, value := 100, timestamp := 2 ^ 64, canReceive := allGood }

/-- C6 counterexample: at block timestamp `2 ^ 64` the same `createWager`
call succeeds on both contracts, but the gas-optimized variant stores
`createdAt` truncated to `uint64`, so its assembled logical record differs
from the baseline record — the two variants are not observationally
equivalent without bounds on the environment. -/
theorem C6_counterexample :
    (WagerContract.bstep st0 envBig wtCreate).2.ok = true ∧
    (WagerContractGasOptimized.gstep g0 envBig wtCreate).2.ok = true ∧
    WagerContractGasOptimized.logicalWager
        (WagerContractGasOptimized.gstep g0 envBig wtCreate).1 1 ≠
      (WagerContract.bstep st0 envBig wtCreate).1.wagers 1 := by
  decide

/-- C6 (amended): provided every block timestamp fits `uint64`, every created
amount fits `uint128`, and at most `2 ^ 32 - 1` wagers are created, the
baseline and gas-optimized contracts are observationally equivalent: every
call in a trace from deployment succeeds or fails identically, performs the
same value transfers and returns the same id, and afterwards the logical
wager record assembled by the gas-optimized `getWager` equals the baseline
record for every id. -/
theorem C6_equivalence (o : Address) (tr : List (Env × Call))
    (hb : ∀ x ∈ tr, BoundedCall x)
    (hcnt : 1 + countCreates tr ≤ 2 ^ 32) :
    WagerContractGasOptimized.grunOuts (WagerContractGasOptimized.ginit o) tr =
      WagerContract.brunOuts (WagerContract.initState o) tr ∧
    ∀ id, WagerContractGasOptimized.logicalWager
        (WagerContractGasOptimized.grun (WagerContractGasOptimized.ginit o) tr)
        id =
      (WagerContract.brun (WagerContract.initState o) tr).wagers id := by
  obtain ⟨houts, hrel⟩ := run_equiv_aux tr (WagerContract.initState o)
    (WagerContractGasOptimized.ginit o) (rel_init o)
    (WagerContract.inv_init o) hb hcnt
  exact ⟨houts, hrel.2.2⟩

/-- The concrete three-call trace satisfies the representation bounds. -/
theorem tr3_bounded : ∀ x ∈ tr3, BoundedCall x := by
  intro x hx
  simp only [tr3, List.mem_cons, List.not_mem_nil, or_false] at hx
  rcases hx with h | h | h <;> subst h <;>
    refine ⟨by decide, ?_⟩ <;> intro ps amt cond ce cp ca hc <;>
    first
    | exact Call.noConfusion hc
    | (simp only [wtCreate, Call.create.injEq] at hc
       obtain ⟨-, h2, -, -, -, -⟩ := hc
       omega)

/-- C6 witness: on the concrete create/accept/resolve trace the two
contracts produce identical per-call outcomes. -/
theorem C6_witness :
    WagerContractGasOptimized.grunOuts (WagerContractGasOptimized.ginit 100)
        tr3 =
      WagerContract.brunOuts (WagerContract.initState 100) tr3 :=
  (C6_equivalence 100 tr3 tr3_bounded (by decide)).1
